import Mathlib

/-!
Verification of the OMOTES SDK broker core (`omotes_sdk/internal/common/broker_interface.py`
and its callers) by a shallow embedding in Lean.

Modelling conventions:
- Python byte strings are `List Nat`.
- Callback functions and broker handles (queues, exchanges, tasks) are opaque to every
  property checked here, so callbacks are identified by an opaque `Nat` id, exchange
  handles by their name, and task objects by their queue name.
- Each operation that talks to the broker records the AMQP calls it performs in a
  `List BrokerOp` trace, so that "no broker call attempted" is a statement about the trace.
- Raising an exception is modelled as returning an `error` field / `Except`, with the
  state component equal to the input state (a raise performs no further mutation).
-/

namespace OmotesSDK

/-- Association-list lookup with string keys, modelling Python `dict.__getitem__` /
`in` checks on `Dict[str, V]`. -/
def lookupName {α : Type} : List (String × α) → String → Option α
  | [], _ => none
  | (k, v) :: rest, q => if k = q then some v else lookupName rest q

/-- Membership in a list of string keys, modelling `key in dict` on the task registry. -/
def memberName : List String → String → Bool
  | [], _ => false
  | k :: rest, q => if k = q then true else memberName rest q

/-- Removal of a key from an association list, modelling Python `del dict[key]`
(keys are unique in a `dict`, so removing every matching entry is equivalent). -/
def removeName {α : Type} : List (String × α) → String → List (String × α)
  | [], _ => []
  | (k, v) :: rest, q => if k = q then removeName rest q else (k, v) :: removeName rest q

/-- Removal of a key from a key list, modelling `del dict[key]` on the task registry. -/
def removeMember : List String → String → List String
  | [], _ => []
  | k :: rest, q => if k = q then removeMember rest q else k :: removeMember rest q

/-- `AMQPQueueType` from `broker_interface.py` (EXCLUSIVE / AUTO_DELETE / DURABLE). -/
inductive AMQPQueueType
  | EXCLUSIVE
  | AUTO_DELETE
  | DURABLE
deriving DecidableEq

/-- `AMQPQueueType.to_argument`: each enum member maps to exactly one boolean flag. -/
def AMQPQueueType.to_argument : AMQPQueueType → List (String × Bool)
  | .EXCLUSIVE => [("exclusive", true)]
  | .AUTO_DELETE => [("auto_delete", true)]
  | .DURABLE => [("durable", true)]

/-- `aio_pika.DeliveryMode`. -/
inductive DeliveryMode
  | NOT_PERSISTENT
  | PERSISTENT
deriving DecidableEq

/-- `aio_pika.Message` as built by `_send_message_to`: a body plus a delivery mode. -/
structure AMQPMessage where
  body : List Nat
  delivery_mode : DeliveryMode
deriving DecidableEq

/-- The AMQP calls the broker interface can perform against the broker. -/
inductive BrokerOp
  | declareQueue (queue_name : String) (arguments : List (String × Bool))
  | bindQueue (queue_name : String) (exchange_name : String) (routing_key : Option String)
  | declareExchangeOp (exchange_name : String)
  | publish (exchange_name : Option String) (routing_key : String) (message : AMQPMessage)
  | cancelTask (queue_name : String)
  | queueDelete (queue_name : String)
  | closeChannel
  | closeConnection
deriving DecidableEq

/-- `QueueSubscriptionConsumer` dataclass: queue (by name; the handle is opaque),
optional message limit, and the callback (opaque id). -/
structure QueueSubscriptionConsumer where
  queue : String
  disconnect_after_messages : Option Nat
  callback_on_message : Nat
deriving DecidableEq

/-- The registry state of a `BrokerInterface`: declared exchange names
(`_exchanges`, values are opaque handles), the consumer registry
(`_queue_subscription_consumer_by_name`), and the key set of the task registry
(`_queue_subscription_tasks`, task objects are opaque handles). -/
structure BrokerState where
  exchanges : List String
  queue_subscription_consumer_by_name : List (String × QueueSubscriptionConsumer)
  queue_subscription_tasks : List String
deriving DecidableEq

/-- The registries as initialised by `BrokerInterface.__init__`: all empty. -/
def initialBrokerState : BrokerState :=
  { exchanges := [], queue_subscription_consumer_by_name := [], queue_subscription_tasks := [] }

/-- Result of a broker-interface operation: the AMQP calls performed, the state of the
registries afterwards, and the raised exception message, if any (a raise leaves the
registries as they were at the raise point). -/
structure OpResult where
  ops : List BrokerOp
  state : BrokerState
  error : Option String
deriving DecidableEq

/-- `BrokerInterface._declare_exchange`: declares the exchange on the broker and records
it in `_exchanges` (a `dict` assignment: re-declaring overwrites, so the key set gains
the name at most once). -/
def declareExchange (st : BrokerState) (exchange_name : String) : OpResult :=
  { ops := [BrokerOp.declareExchangeOp exchange_name],
    state := { st with
      exchanges :=
        if memberName st.exchanges exchange_name then st.exchanges
        else exchange_name :: st.exchanges },
    error := none }

/-- `BrokerInterface._send_message_to`: builds a persistent message, then publishes to
the default exchange (no name), raises if a named exchange is not declared, or publishes
to the declared exchange. -/
def sendMessageTo (st : BrokerState) (exchange_name : Option String) (routing_key : String)
    (message : List Nat) : List BrokerOp × Option String :=
  let amqp_message : AMQPMessage := { body := message, delivery_mode := .PERSISTENT }
  match exchange_name with
  | none => ([BrokerOp.publish none routing_key amqp_message], none)
  | some en =>
    if memberName st.exchanges en then
      ([BrokerOp.publish (some en) routing_key amqp_message], none)
    else
      ([], some ("Unable to send message with routing key " ++ routing_key ++
        " to exchange " ++ en ++ " as it has not been declared yet"))

/-- The registry effect of a successful `_add_queue_subscription` (lines 235 to 244 of
`broker_interface.py`): create the `QueueSubscriptionConsumer`, store it in the consumer
registry, create its task and store the task in the task registry under the queue name. -/
def subscriptionInsert (st : BrokerState) (queue_name : String) (callback_on_message : Nat)
    (disconnect_after_messages : Option Nat) : BrokerState :=
  { st with
    queue_subscription_consumer_by_name :=
      (queue_name,
        { queue := queue_name,
          disconnect_after_messages := disconnect_after_messages,
          callback_on_message := callback_on_message }) ::
        st.queue_subscription_consumer_by_name,
    queue_subscription_tasks := queue_name :: st.queue_subscription_tasks }

/-- `BrokerInterface._add_queue_subscription`, line by line:
1. duplicate queue name in the consumer registry: raise, nothing else happens;
2. `bind_to_routing_key` set without `exchange_name`: raise, nothing else happens;
3. declare the queue on the broker (this AMQP call happens before the exchange check);
4. if an exchange name is given but not declared by this connection: raise (the queue
   was already declared, the registries are untouched); otherwise bind the queue;
5. create the consumer, store it in the consumer registry, start its task and store it
   in the task registry. -/
def addQueueSubscription (st : BrokerState) (queue_name : String) (callback_on_message : Nat)
    (queue_type : AMQPQueueType) (bind_to_routing_key : Option String)
    (exchange_name : Option String) (disconnect_after_messages : Option Nat) : OpResult :=
  if (lookupName st.queue_subscription_consumer_by_name queue_name).isSome then
    { ops := [], state := st,
      error := some ("Queue subscription for " ++ queue_name ++ " already exists.") }
  else if bind_to_routing_key.isSome && exchange_name.isNone then
    { ops := [], state := st,
      error := some ("Routing key for binding was set but no exchange name was provided.") }
  else
    match exchange_name with
    | some en =>
      if memberName st.exchanges en then
        { ops := [BrokerOp.declareQueue queue_name queue_type.to_argument,
                  BrokerOp.bindQueue queue_name en bind_to_routing_key],
          state := subscriptionInsert st queue_name callback_on_message
            disconnect_after_messages,
          error := none }
      else
        { ops := [BrokerOp.declareQueue queue_name queue_type.to_argument], state := st,
          error := some ("Exchange " ++ en ++ " was not yet declared by this connection.") }
    | none =>
      { ops := [BrokerOp.declareQueue queue_name queue_type.to_argument],
        state := subscriptionInsert st queue_name callback_on_message
          disconnect_after_messages,
        error := none }

/-- `BrokerInterface._remove_queue_subscription_task` (the done-callback of a
subscription task): when the queue name is still in the task registry, delete its entry
from both the consumer registry and the task registry. -/
def removeQueueSubscriptionTask (st : BrokerState) (queue_name : String) : BrokerState :=
  if memberName st.queue_subscription_tasks queue_name then
    { st with
      queue_subscription_consumer_by_name :=
        removeName st.queue_subscription_consumer_by_name queue_name,
      queue_subscription_tasks := removeMember st.queue_subscription_tasks queue_name }
  else st

/-- `_setup_broker_interface` sets the channel quality of service to a prefetch count
of 1 (`await self._channel.set_qos(prefetch_count=1)`). -/
def setup_prefetch_count : Nat := 1

/-- Observable events of `QueueSubscriptionConsumer.run`, indexed by the position of the
message in the delivery order of the queue (message `idx` is the `idx`-th delivered). -/
inductive ConsumerEvent
  | callback_started (idx : Nat)
  | callback_completed (idx : Nat)
  | acked (idx : Nat)
  | requeued (idx : Nat)
deriving DecidableEq

/-- How a `QueueSubscriptionConsumer.run` invocation ended:
the `disconnect_after_messages` limit was reached (clean `break` out of the iterator),
the user callback raised (the exception propagates out of `run`), or the queue iterator
itself ended (external cancellation / channel close). -/
inductive ConsumerTermination
  | limit_reached
  | callback_error
  | iteration_ended
deriving DecidableEq

/-- The events of one successfully processed message in `QueueSubscriptionConsumer.run`:
the callback is started and completed inside `message.process(requeue=True)`, and the
acknowledgement is committed when that context exits (also when exiting via `break`). -/
def consumerStep (idx : Nat) : List ConsumerEvent :=
  [.callback_started idx, .callback_completed idx, .acked idx]

/-- The `disconnect_after_messages` test of `QueueSubscriptionConsumer.run`:
`disconnect_after_messages is not None and number_of_messages_processed >= limit`. -/
def limitHit : Option Nat → Nat → Bool
  | none, _ => false
  | some limit, processed => limit ≤ processed

/-- `QueueSubscriptionConsumer.run` over the first `fuel` messages delivered by the
broker, starting with `processed` messages already counted and the next message at
delivery position `idx`. `cbOk i` tells whether the user callback returns normally on
message `i`. Returns the event trace, the final
`number_of_messages_processed`, and the reason the loop ended. Per message: the callback
runs inside `message.process(requeue=True)`; on success the processed counter is
incremented, the message is acked on context exit, and the loop breaks if the limit is
reached; if the callback raises, the message is requeued and the exception ends `run`. -/
def consumerRunAux (disconnect_after_messages : Option Nat) (cbOk : Nat → Bool) :
    Nat → Nat → Nat → List ConsumerEvent × Nat × ConsumerTermination
  | 0, processed, _ => ([], processed, .iteration_ended)
  | fuel + 1, processed, idx =>
    if cbOk idx then
      if limitHit disconnect_after_messages (processed + 1) then
        (consumerStep idx, processed + 1, .limit_reached)
      else
        let rest := consumerRunAux disconnect_after_messages cbOk fuel (processed + 1) (idx + 1)
        (consumerStep idx ++ rest.1, rest.2)
    else
      ([.callback_started idx, .requeued idx], processed, .callback_error)

/-- `QueueSubscriptionConsumer.run` from the start of the delivery sequence. -/
def consumerRun (disconnect_after_messages : Option Nat) (cbOk : Nat → Bool) (fuel : Nat) :
    List ConsumerEvent × Nat × ConsumerTermination :=
  consumerRunAux disconnect_after_messages cbOk fuel 0 0

/-- Number of callback invocations recorded in a consumer trace. -/
def countCallbackInvocations (tr : List ConsumerEvent) : Nat :=
  tr.countP fun e => match e with | .callback_started _ => true | _ => false

/-- Number of acknowledgements recorded in a consumer trace. -/
def countAcks (tr : List ConsumerEvent) : Nat :=
  tr.countP fun e => match e with | .acked _ => true | _ => false

/-- The canonical trace of `k` consecutive successfully processed messages starting at
delivery position `idx`. -/
def stepTrace : Nat → Nat → List ConsumerEvent
  | _, 0 => []
  | idx, k + 1 => consumerStep idx ++ stepTrace (idx + 1) k

/-- `BrokerInterface.TIMEOUT_ON_STOP_SECONDS`. -/
def TIMEOUT_ON_STOP_SECONDS : Nat := 5

/-- `_stop_broker_interface`: cancel every live subscription task, then close the
channel, then close the connection. -/
def stopBrokerInterfaceOps (tasks : List String) : List BrokerOp :=
  tasks.map BrokerOp.cancelTask ++ [BrokerOp.closeChannel, BrokerOp.closeConnection]

/-- The shutdown-related state of a `BrokerInterface`: the `_stopping` flag (the only
state mutated by multiple caller threads, guarded by `_stopping_lock`), the `_stopped`
flag, the count of logged shutdown errors, the count of `loop.stop` requests, and the
log of AMQP shutdown calls that were scheduled. -/
structure LifecycleState where
  stopping : Bool
  stopped : Bool
  timeout_errors_logged : Nat
  loop_stop_requests : Nat
  shutdown_ops_log : List BrokerOp
deriving DecidableEq

/-- Shutdown state as initialised by `BrokerInterface.__init__`. -/
def initialLifecycleState : LifecycleState :=
  { stopping := false, stopped := false, timeout_errors_logged := 0,
    loop_stop_requests := 0, shutdown_ops_log := [] }

/-- One `BrokerInterface.stop()` call. Under `_stopping_lock`, the caller reads
`_stopping` and sets it; only the caller that saw it unset (`will_stop`) proceeds.
That caller schedules `_stop_broker_interface` (recorded in the ops log), waits for it
with `future.result(timeout=TIMEOUT_ON_STOP_SECONDS)` — `graceful_in_time` tells whether
that wait succeeded; any exception (including the timeout) is caught and logged — then
requests `loop.stop()` and sets `_stopped`. Returns the new state and whether the call
raised an exception to its caller (it never does). Concurrent calls are modelled by
their serialisation order at `_stopping_lock`; a caller that loses the race performs no
further shared-state effects, so attributing the winner shutdown effects to its own
step preserves every observable counted here. -/
def stopCall (tasks : List String) (st : LifecycleState) (graceful_in_time : Bool) :
    LifecycleState × Bool :=
  let will_stop := !st.stopping
  let st1 := { st with stopping := true }
  if will_stop then
    let st2 := { st1 with
      shutdown_ops_log := st1.shutdown_ops_log ++ stopBrokerInterfaceOps tasks,
      timeout_errors_logged :=
        st1.timeout_errors_logged + (if graceful_in_time then 0 else 1) }
    ({ st2 with
        loop_stop_requests := st2.loop_stop_requests + 1,
        stopped := true }, false)
  else (st1, false)

/-- A sequence of `stop()` calls in their serialisation order at `_stopping_lock`,
each with its own graceful-shutdown outcome. Returns the final state and, per call,
whether that call raised. -/
def runStopCalls (tasks : List String) : LifecycleState → List Bool → LifecycleState × List Bool
  | st, [] => (st, [])
  | st, g :: rest =>
    let first := stopCall tasks st g
    let others := runStopCalls tasks first.1 rest
    (others.1, first.2 :: others.2)

/-- Whether an `Except` value is a success. -/
def isOkExcept {ε α : Type} : Except ε α → Bool
  | .ok _ => true
  | .error _ => false

/-- A Python `datetime.timedelta`, stored as its total number of microseconds
(the full resolution of `timedelta`). -/
structure Timedelta where
  microseconds : Int
deriving DecidableEq

/-- `timedelta` of a whole number of seconds. -/
def Timedelta.ofSeconds (s : Int) : Timedelta := { microseconds := s * 1000000 }

/-- The duration in whole milliseconds, as used for the AMQP wire arguments. -/
def Timedelta.total_milliseconds (t : Timedelta) : Int := t.microseconds / 1000

/-- A value of an AMQP queue-declaration wire argument. -/
inductive WireValue
  | int (value : Int)
  | str (value : String)
deriving DecidableEq

/-- Modelled from the spec: the class `QueueMessageTTLArguments` is referenced by
`unit_test/internal/common/test_queue_message_ttl.py` but its definition is not among
the provided sources, so it is modelled from the specification text: optional queue TTL
and message TTL (each, if present, a strictly positive duration; the message TTL must
not exceed the queue TTL when both are set — violations are construction-time errors)
plus optional dead-letter routing key and exchange. -/
structure QueueMessageTTLArguments where
  queue_ttl : Option Timedelta
  message_ttl : Option Timedelta
  dead_letter_routing_key : Option String
  dead_letter_exchange : Option String
deriving DecidableEq

/-- Modelled from the spec: validating construction of `QueueMessageTTLArguments`.
Fails if the queue TTL is present and not strictly positive, if the message TTL is
present and not strictly positive, or if both are present and the message TTL exceeds
the queue TTL. -/
def mkQueueMessageTTLArguments (queue_ttl message_ttl : Option Timedelta)
    (dead_letter_routing_key dead_letter_exchange : Option String) :
    Except String QueueMessageTTLArguments :=
  if queue_ttl.any fun q => decide (q.microseconds ≤ 0) then
    .error "queue_ttl must be a strictly positive duration"
  else if message_ttl.any fun m => decide (m.microseconds ≤ 0) then
    .error "message_ttl must be a strictly positive duration"
  else if (match queue_ttl, message_ttl with
           | some q, some m => decide (q.microseconds < m.microseconds)
           | _, _ => false) then
    .error "message_ttl may not exceed queue_ttl"
  else
    .ok { queue_ttl := queue_ttl, message_ttl := message_ttl,
          dead_letter_routing_key := dead_letter_routing_key,
          dead_letter_exchange := dead_letter_exchange }

/-- Modelled from the spec: `QueueMessageTTLArguments.to_argument`, the
queue-declaration option to wire-argument mapping of the spec (queue TTL to `x-expires`
in milliseconds, message TTL to `x-message-ttl` in milliseconds, dead-letter routing key
and exchange passed through). -/
def QueueMessageTTLArguments.to_argument (args : QueueMessageTTLArguments) :
    List (String × WireValue) :=
  (match args.queue_ttl with
   | some q => [("x-expires", WireValue.int q.total_milliseconds)]
   | none => []) ++
  (match args.message_ttl with
   | some m => [("x-message-ttl", WireValue.int m.total_milliseconds)]
   | none => []) ++
  (match args.dead_letter_routing_key with
   | some k => [("x-dead-letter-routing-key", WireValue.str k)]
   | none => []) ++
  (match args.dead_letter_exchange with
   | some e => [("x-dead-letter-exchange", WireValue.str e)]
   | none => [])

/-- A Python exception as observed by a caller of the OMOTES interface. -/
inductive PyError
  | typeError (message : String)
  | runtimeError (message : String)
deriving DecidableEq

/-- The parameter names of `BrokerInterface.add_queue_subscription` (besides `self`),
from its signature. -/
def add_queue_subscription_parameters : List String :=
  ["queue_name", "callback_on_message", "queue_type",
   "bind_to_routing_key", "exchange_name", "disconnect_after_messages"]

/-- The keyword-argument names used by `OmotesInterface.connect_to_submitted_job` in its
call to `add_queue_subscription` for the job-results queue. -/
def results_subscription_call_kwargs : List String :=
  ["queue_name", "callback_on_message", "queue_type",
   "exchange_name", "delete_after_messages"]

/-- The Python call-binding check for keyword arguments: a call raises `TypeError`
(before the callee body runs) when some keyword argument is not a parameter name. -/
def bindKwargs (parameters kwargs : List String) : Option PyError :=
  match kwargs.find? fun k => !(parameters.contains k) with
  | some k => some (.typeError ("got an unexpected keyword argument " ++ k))
  | none => none

/-- `OmotesInterface.connect_to_submitted_job`: subscribes to the job-results queue
(keyword arguments as written at the call site, so Python binding is checked first),
then, when the respective callbacks are given, to the progress and status queues (those
call sites use only valid keyword names). Queue and exchange names are produced by the
external naming collaborator and passed in here as opaque strings; callbacks are opaque
ids. Returns the AMQP calls performed, the registry state afterwards and the raised
exception, if any. -/
def connect_to_submitted_job (st : BrokerState)
    (results_queue progress_queue status_queue exchange : String)
    (cb_finished cb_progress cb_status : Nat) (with_progress with_status : Bool) :
    List BrokerOp × BrokerState × Option PyError :=
  match bindKwargs add_queue_subscription_parameters results_subscription_call_kwargs with
  | some e => ([], st, some e)
  | none =>
    let r1 := addQueueSubscription st results_queue cb_finished .DURABLE
      none (some exchange) (some 1)
    match r1.error with
    | some msg => (r1.ops, r1.state, some (.runtimeError msg))
    | none =>
      let r2 :=
        if with_progress then
          addQueueSubscription r1.state progress_queue cb_progress .DURABLE
            none (some exchange) none
        else { ops := [], state := r1.state, error := none }
      match r2.error with
      | some msg => (r1.ops ++ r2.ops, r2.state, some (.runtimeError msg))
      | none =>
        let r3 :=
          if with_status then
            addQueueSubscription r2.state status_queue cb_status .DURABLE
              none (some exchange) none
          else { ops := [], state := r2.state, error := none }
        match r3.error with
        | some msg => (r1.ops ++ r2.ops ++ r3.ops, r3.state, some (.runtimeError msg))
        | none => (r1.ops ++ r2.ops ++ r3.ops, r3.state, none)

/-- `OmotesInterface.submit_job`: raises `UnknownWorkflowException` when the workflow
type is unknown, otherwise connects to the submitted job via
`connect_to_submitted_job` and then publishes the serialized job submission. -/
def submit_job (st : BrokerState) (workflow_known : Bool)
    (results_queue progress_queue status_queue exchange submission_queue : String)
    (cb_finished cb_progress cb_status : Nat) (with_progress with_status : Bool)
    (job_submission_bytes : List Nat) :
    List BrokerOp × BrokerState × Option PyError :=
  if !workflow_known then ([], st, some (.runtimeError "UnknownWorkflowException"))
  else
    let c := connect_to_submitted_job st results_queue progress_queue status_queue exchange
      cb_finished cb_progress cb_status with_progress with_status
    match c.2.2 with
    | some e => (c.1, c.2.1, some e)
    | none =>
      let s := sendMessageTo c.2.1 (some exchange) submission_queue job_submission_bytes
      match s.2 with
      | some msg => (c.1 ++ s.1, c.2.1, some (.runtimeError msg))
      | none => (c.1 ++ s.1, c.2.1, none)

/-- The two-registry alignment invariant: the consumer registry and the task registry
contain exactly the same queue names. -/
def registriesConsistent (st : BrokerState) : Prop :=
  ∀ q, (lookupName st.queue_subscription_consumer_by_name q).isSome =
    memberName st.queue_subscription_tasks q

/-! Helper lemmas about the registry primitives. -/

theorem lookupName_removeName_self {α : Type} (l : List (String × α)) (k : String) :
    lookupName (removeName l k) k = none := by
  induction l with
  | nil => rfl
  | cons p rest ih =>
    obtain ⟨a, b⟩ := p
    by_cases h : a = k
    · simp [removeName, h, ih]
    · simp [removeName, lookupName, h, ih]

theorem lookupName_removeName_ne {α : Type} (l : List (String × α)) (k q : String)
    (h : q ≠ k) : lookupName (removeName l k) q = lookupName l q := by
  induction l with
  | nil => rfl
  | cons p rest ih =>
    obtain ⟨a, b⟩ := p
    by_cases ha : a = k
    · subst ha
      simp [removeName, lookupName, Ne.symm h, ih]
    · simp [removeName, lookupName, ha, ih]

theorem memberName_removeMember_self (l : List String) (k : String) :
    memberName (removeMember l k) k = false := by
  induction l with
  | nil => rfl
  | cons a rest ih =>
    by_cases h : a = k
    · simp [removeMember, h, ih]
    · simp [removeMember, memberName, h, ih]

theorem memberName_removeMember_ne (l : List String) (k q : String) (h : q ≠ k) :
    memberName (removeMember l k) q = memberName l q := by
  induction l with
  | nil => rfl
  | cons a rest ih =>
    by_cases ha : a = k
    · subst ha
      simp [removeMember, memberName, Ne.symm h, ih]
    · simp [removeMember, memberName, ha, ih]

theorem consistent_subscriptionInsert (st : BrokerState) (qn : String) (cb : Nat)
    (dam : Option Nat) (h : registriesConsistent st) :
    registriesConsistent (subscriptionInsert st qn cb dam) := by
  intro q
  by_cases hq : qn = q
  · simp [subscriptionInsert, lookupName, memberName, hq]
  · simp [subscriptionInsert, lookupName, memberName, hq, h q]

theorem registry_after_task_done (st : BrokerState) (qn : String)
    (h : memberName st.queue_subscription_tasks qn = true) :
    lookupName
        (removeQueueSubscriptionTask st qn).queue_subscription_consumer_by_name qn
      = none ∧
    memberName (removeQueueSubscriptionTask st qn).queue_subscription_tasks qn
      = false := by
  simp [removeQueueSubscriptionTask, h, lookupName_removeName_self,
    memberName_removeMember_self]

/-! Claim theorems. -/

/-- C1: when the subscription registry already holds an entry for queue name `Q`,
`_add_queue_subscription` on `Q` raises immediately: no broker call is attempted
(empty operation trace, so no queue declaration, binding or consumer start), the
registries are unchanged, and the existing subscription for `Q` is still registered. -/
theorem add_duplicate_subscription_spec (st : BrokerState) (queue_name : String)
    (cb : Nat) (qt : AMQPQueueType) (brk en : Option String) (dam : Option Nat)
    (c : QueueSubscriptionConsumer)
    (h : lookupName st.queue_subscription_consumer_by_name queue_name = some c) :
    (addQueueSubscription st queue_name cb qt brk en dam).error.isSome = true ∧
    (addQueueSubscription st queue_name cb qt brk en dam).ops = [] ∧
    (addQueueSubscription st queue_name cb qt brk en dam).state = st ∧
    lookupName (addQueueSubscription st queue_name cb qt brk en
      dam).state.queue_subscription_consumer_by_name queue_name = some c := by
  simp [addQueueSubscription, h]

/-- C1 witness: a concrete registry holding a subscription for queue `q` rejects a
second subscription for `q`. -/
theorem add_duplicate_subscription_spec_applied :
    (addQueueSubscription
      { exchanges := [],
        queue_subscription_consumer_by_name :=
          [("q", { queue := "q", disconnect_after_messages := none,
                   callback_on_message := 0 })],
        queue_subscription_tasks := ["q"] }
      "q" 1 .DURABLE none none none).error.isSome = true ∧
    (addQueueSubscription
      { exchanges := [],
        queue_subscription_consumer_by_name :=
          [("q", { queue := "q", disconnect_after_messages := none,
                   callback_on_message := 0 })],
        queue_subscription_tasks := ["q"] }
      "q" 1 .DURABLE none none none).ops = [] := by
  have h := add_duplicate_subscription_spec
    { exchanges := [],
      queue_subscription_consumer_by_name :=
        [("q", { queue := "q", disconnect_after_messages := none,
                 callback_on_message := 0 })],
      queue_subscription_tasks := ["q"] }
    "q" 1 .DURABLE none none none
    { queue := "q", disconnect_after_messages := none, callback_on_message := 0 }
    (by simp [lookupName])
  exact ⟨h.1, h.2.1⟩

/-- C3 counterexample: with no exchange declared, `_add_queue_subscription` with
`exchange_name = "ex"` does raise, but only after declaring the queue on the broker:
the operation trace is not empty, contradicting the claim that no broker interaction
happens before the error. -/
theorem add_undeclared_exchange_counterexample :
    (addQueueSubscription initialBrokerState "q" 0 .DURABLE (some "rk") (some "ex")
      none).error.isSome = true ∧
    (addQueueSubscription initialBrokerState "q" 0 .DURABLE (some "rk") (some "ex")
      none).ops = [BrokerOp.declareQueue "q" [("durable", true)]] := by
  exact ⟨rfl, rfl⟩

/-- C3 (amended): for a fresh queue name, requesting a binding without an exchange name
raises before any broker interaction (empty trace) and changes no registry state; an
exchange name that was not declared by this connection also raises with no registry
change, but only after the queue has been declared on the broker (and before any
binding). -/
theorem add_subscription_config_error_spec (st : BrokerState) (queue_name : String)
    (cb : Nat) (qt : AMQPQueueType)
    (hnew : lookupName st.queue_subscription_consumer_by_name queue_name = none) :
    (∀ rk : String, ∀ dam,
      (addQueueSubscription st queue_name cb qt (some rk) none dam).error.isSome
        = true ∧
      (addQueueSubscription st queue_name cb qt (some rk) none dam).ops = [] ∧
      (addQueueSubscription st queue_name cb qt (some rk) none dam).state = st) ∧
    (∀ en : String, ∀ brk dam, memberName st.exchanges en = false →
      (addQueueSubscription st queue_name cb qt brk (some en) dam).error.isSome
        = true ∧
      (addQueueSubscription st queue_name cb qt brk (some en) dam).ops
        = [BrokerOp.declareQueue queue_name qt.to_argument] ∧
      (addQueueSubscription st queue_name cb qt brk (some en) dam).state = st) := by
  constructor
  · intro rk dam
    simp [addQueueSubscription, hnew]
  · intro en brk dam hex
    simp [addQueueSubscription, hnew, hex]

/-- C3 witness: at concrete inputs, the binding-without-exchange case performs no broker
call and the undeclared-exchange case leaves the registries unchanged. -/
theorem add_subscription_config_error_spec_applied :
    (addQueueSubscription initialBrokerState "q" 0 .DURABLE (some "rk") none
      none).ops = [] ∧
    (addQueueSubscription initialBrokerState "q" 0 .AUTO_DELETE none (some "ex")
      none).state = initialBrokerState := by
  exact ⟨((add_subscription_config_error_spec initialBrokerState "q" 0 .DURABLE
      rfl).1 "rk" none).2.1,
    ((add_subscription_config_error_spec initialBrokerState "q" 0 .AUTO_DELETE
      rfl).2 "ex" none none rfl).2.2⟩

/-- C6: `_send_message_to` raises exactly when a named exchange is not in the exchange
registry of this connection; when it does not raise (declared exchange or default
routing), it publishes exactly one message whose body equals the input bytes and whose
delivery mode is persistent. -/
theorem send_message_to_spec (st : BrokerState) (exchange_name : Option String)
    (routing_key : String) (message : List Nat) :
    ((sendMessageTo st exchange_name routing_key message).2.isSome = true ↔
      ∃ en, exchange_name = some en ∧ memberName st.exchanges en = false) ∧
    ((sendMessageTo st exchange_name routing_key message).2 = none →
      (sendMessageTo st exchange_name routing_key message).1
        = [BrokerOp.publish exchange_name routing_key
            { body := message, delivery_mode := .PERSISTENT }]) := by
  cases exchange_name with
  | none => simp [sendMessageTo]
  | some en =>
    by_cases hm : memberName st.exchanges en
    · simp [sendMessageTo, hm]
    · simp [sendMessageTo, hm]

/-- C6 witness: publishing to a declared exchange at concrete inputs emits exactly the
input bytes with persistent delivery. -/
theorem send_message_to_spec_applied :
    (sendMessageTo (declareExchange initialBrokerState "ex").state (some "ex") "rk"
      [1, 2]).1
      = [BrokerOp.publish (some "ex") "rk"
          { body := [1, 2], delivery_mode := .PERSISTENT }] :=
  (send_message_to_spec (declareExchange initialBrokerState "ex").state (some "ex")
    "rk" [1, 2]).2 rfl

/-- C9: `connect_to_submitted_job` passes the keyword argument
`delete_after_messages`, which is not among the parameter names of
`add_queue_subscription` (the parameter is `disconnect_after_messages`), so for every
registry state and every job the call raises a `TypeError` with no broker operation
performed and no subscription registered; `submit_job` with a known workflow calls it
and therefore raises the same `TypeError`. -/
theorem connect_to_submitted_job_type_error_spec (st : BrokerState)
    (rq pq sq ex : String) (cbf cbp cbs : Nat) (wp ws : Bool) :
    connect_to_submitted_job st rq pq sq ex cbf cbp cbs wp ws
      = ([], st,
          some (.typeError "got an unexpected keyword argument delete_after_messages")) ∧
    add_queue_subscription_parameters.contains "delete_after_messages" = false ∧
    add_queue_subscription_parameters.contains "disconnect_after_messages" = true ∧
    (∀ subq : String, ∀ body : List Nat,
      submit_job st true rq pq sq ex subq cbf cbp cbs wp ws body
        = ([], st,
            some (.typeError "got an unexpected keyword argument delete_after_messages"))) := by
  exact ⟨rfl, by decide, by decide, fun subq body => rfl⟩

/-- C10: the consumer registry and the task registry always hold exactly the same queue
names: they start empty together, every `_add_queue_subscription` (successful or not)
preserves key-set equality, and so does the task done-callback
`_remove_queue_subscription_task`. -/
theorem registry_alignment_spec :
    registriesConsistent initialBrokerState ∧
    (∀ st qn cb qt brk en dam, registriesConsistent st →
      registriesConsistent (addQueueSubscription st qn cb qt brk en dam).state) ∧
    (∀ st qn, registriesConsistent st →
      registriesConsistent (removeQueueSubscriptionTask st qn)) := by
  refine ⟨fun q => rfl, ?_, ?_⟩
  · intro st qn cb qt brk en dam h
    unfold addQueueSubscription
    split
    · exact h
    · split
      · exact h
      · split
        · split
          · exact consistent_subscriptionInsert st qn cb dam h
          · exact h
        · exact consistent_subscriptionInsert st qn cb dam h
  · intro st qn h
    unfold removeQueueSubscriptionTask
    split
    · intro q
      by_cases hq : q = qn
      · subst hq
        simp [lookupName_removeName_self, memberName_removeMember_self]
      · simp [lookupName_removeName_ne _ _ _ hq, memberName_removeMember_ne _ _ _ hq,
          h q]
    · exact h

/-- C10 witness: applying the preservation parts from the empty initial registries at a
concrete subscription keeps the two registries aligned. -/
theorem registry_alignment_spec_applied :
    registriesConsistent
      (removeQueueSubscriptionTask
        (addQueueSubscription initialBrokerState "q" 0 .DURABLE none none none).state
        "q") :=
  registry_alignment_spec.2.2
    (addQueueSubscription initialBrokerState "q" 0 .DURABLE none none none).state "q"
    (registry_alignment_spec.2.1 initialBrokerState "q" 0 .DURABLE none none none
      registry_alignment_spec.1)

/-! Helper lemmas about consumer runs. -/

theorem consumerRunAux_all_ok (cbOk : Nat → Bool) (hcb : ∀ i, cbOk i = true) (N : Nat) :
    ∀ fuel processed idx, processed < N → N ≤ processed + fuel →
      consumerRunAux (some N) cbOk fuel processed idx
        = (stepTrace idx (N - processed), N, .limit_reached) := by
  intro fuel
  induction fuel with
  | zero => intro processed idx h1 h2; omega
  | succ fuel ih =>
    intro processed idx h1 h2
    rw [consumerRunAux, hcb idx]
    by_cases hl : N ≤ processed + 1
    · have hN : N = processed + 1 := by omega
      have hlim : limitHit (some N) (processed + 1) = true := by
        simp [limitHit]; omega
      rw [hlim]
      have hsub : N - processed = 1 := by omega
      simp [hsub, stepTrace, hN]
    · have hlim : limitHit (some N) (processed + 1) = false := by
        simp [limitHit]; omega
      rw [hlim]
      simp only [Bool.false_eq_true, if_false]
      rw [ih (processed + 1) (idx + 1) (by omega) (by omega)]
      have hsub : N - processed = (N - (processed + 1)) + 1 := by omega
      rw [hsub, stepTrace]
      simp

theorem consumerRunAux_fail_at (cbOk : Nat → Bool) (f : Nat)
    (hlt : ∀ j, j < f → cbOk j = true) (hf : cbOk f = false) (dam : Option Nat) :
    ∀ fuel processed idx, idx ≤ f → f < idx + fuel →
      (∀ M, dam = some M → processed + (f - idx) < M) →
      consumerRunAux dam cbOk fuel processed idx
        = (stepTrace idx (f - idx) ++ [.callback_started f, .requeued f],
           processed + (f - idx), .callback_error) := by
  intro fuel
  induction fuel with
  | zero => intro processed idx h1 h2 h3; omega
  | succ fuel ih =>
    intro processed idx h1 h2 h3
    by_cases hif : idx = f
    · subst hif
      rw [consumerRunAux, hf]
      have hsub : idx - idx = 0 := by omega
      simp [hsub, stepTrace]
    · have hidx : idx < f := by omega
      rw [consumerRunAux, hlt idx hidx]
      have hlim : limitHit dam (processed + 1) = false := by
        cases dam with
        | none => rfl
        | some M =>
          have := h3 M rfl
          simp [limitHit]; omega
      rw [hlim]
      simp only [Bool.false_eq_true, if_false]
      rw [ih (processed + 1) (idx + 1) (by omega) (by omega)
        (fun M hM => by have := h3 M hM; omega)]
      have hsub : f - idx = (f - (idx + 1)) + 1 := by omega
      rw [hsub, stepTrace]
      have harith : processed + 1 + (f - (idx + 1)) = processed + ((f - (idx + 1)) + 1) := by
        omega
      simp [List.append_assoc, harith]

theorem countCallbackInvocations_stepTrace :
    ∀ k idx, countCallbackInvocations (stepTrace idx k) = k := by
  intro k
  induction k with
  | zero => intro idx; rfl
  | succ k ih =>
    intro idx
    have := ih (idx + 1)
    simp [stepTrace, countCallbackInvocations, consumerStep, List.countP_append,
      List.countP_cons] at this ⊢
    omega

theorem countAcks_stepTrace : ∀ k idx, countAcks (stepTrace idx k) = k := by
  intro k
  induction k with
  | zero => intro idx; rfl
  | succ k ih =>
    intro idx
    have := ih (idx + 1)
    simp [stepTrace, countAcks, consumerStep, List.countP_append,
      List.countP_cons] at this ⊢
    omega

theorem acked_mem_stepTrace :
    ∀ k idx i, (ConsumerEvent.acked i ∈ stepTrace idx k) ↔ (idx ≤ i ∧ i < idx + k) := by
  intro k
  induction k with
  | zero => intro idx i; simp [stepTrace]
  | succ k ih =>
    intro idx i
    simp [stepTrace, consumerStep, ih (idx + 1)]
    omega

theorem callback_started_mem_stepTrace :
    ∀ k idx i,
      (ConsumerEvent.callback_started i ∈ stepTrace idx k) ↔ (idx ≤ i ∧ i < idx + k) := by
  intro k
  induction k with
  | zero => intro idx i; simp [stepTrace]
  | succ k ih =>
    intro idx i
    simp [stepTrace, consumerStep, ih (idx + 1)]
    omega

theorem requeued_not_mem_stepTrace :
    ∀ k idx i, ConsumerEvent.requeued i ∉ stepTrace idx k := by
  intro k
  induction k with
  | zero => intro idx i; simp [stepTrace]
  | succ k ih =>
    intro idx i
    simp [stepTrace, consumerStep, ih (idx + 1)]

/-- C4 counterexample: a subscription created with `disconnect_after_messages = 0` that
receives one message whose callback succeeds invokes the callback once — not zero
times, as the claim instantiated at `N = 0` requires. -/
theorem disconnect_after_zero_counterexample :
    countCallbackInvocations (consumerRun (some 0) (fun _ => true) 1).1 = 1 ∧
    (1 : Nat) ≠ 0 := by
  exact ⟨rfl, by decide⟩

/-- C4 (amended, `N ≥ 1`): a consumer with `disconnect_after_messages = N ≥ 1`, given at
least `N` delivered messages with all callbacks succeeding, invokes the callback exactly
`N` times, acknowledges exactly `N` messages, requeues nothing, and ends by reaching the
limit (a clean break out of the iterator, not a cancellation and with no queue deletion);
once its task is done, the done-callback removes the queue from both registries and a
later `add_queue_subscription` under the same name succeeds. -/
theorem disconnect_after_messages_spec (cbOk : Nat → Bool) (N fuel : Nat)
    (queue_name : String) (cb : Nat)
    (hN : 1 ≤ N) (hfuel : N ≤ fuel) (hok : ∀ i, cbOk i = true) :
    countCallbackInvocations (consumerRun (some N) cbOk fuel).1 = N ∧
    countAcks (consumerRun (some N) cbOk fuel).1 = N ∧
    (consumerRun (some N) cbOk fuel).2.1 = N ∧
    (consumerRun (some N) cbOk fuel).2.2 = .limit_reached ∧
    (∀ i, ConsumerEvent.requeued i ∉ (consumerRun (some N) cbOk fuel).1) ∧
    (∀ st : BrokerState, memberName st.queue_subscription_tasks queue_name = true →
      lookupName (removeQueueSubscriptionTask st
          queue_name).queue_subscription_consumer_by_name queue_name = none ∧
      memberName (removeQueueSubscriptionTask st
          queue_name).queue_subscription_tasks queue_name = false ∧
      (addQueueSubscription (removeQueueSubscriptionTask st queue_name) queue_name cb
          .DURABLE none none (some N)).error = none) := by
  have hrun : consumerRun (some N) cbOk fuel = (stepTrace 0 N, N, .limit_reached) := by
    have h := consumerRunAux_all_ok cbOk hok N fuel 0 0 (by omega) (by omega)
    simpa [consumerRun] using h
  rw [hrun]
  refine ⟨countCallbackInvocations_stepTrace N 0, countAcks_stepTrace N 0, rfl, rfl,
    fun i => requeued_not_mem_stepTrace N 0 i, ?_⟩
  intro st hmem
  obtain ⟨hlook, htask⟩ := registry_after_task_done st queue_name hmem
  exact ⟨hlook, htask, by simp [addQueueSubscription, hlook]⟩

/-- C4 witness: at `N = 1` with one delivered message, the callback runs exactly once,
the consumer ends by the limit, and re-adding the queue after the done-callback
succeeds. -/
theorem disconnect_after_messages_spec_applied :
    countCallbackInvocations (consumerRun (some 1) (fun _ => true) 1).1 = 1 ∧
    (consumerRun (some 1) (fun _ => true) 1).2.2 = .limit_reached ∧
    (addQueueSubscription
      (removeQueueSubscriptionTask
        (addQueueSubscription initialBrokerState "q" 0 .DURABLE none none (some 1)).state
        "q")
      "q" 0 .DURABLE none none (some 1)).error = none := by
  have h := disconnect_after_messages_spec (fun _ => true) 1 1 "q" 0 (by decide)
    (by decide) (fun i => rfl)
  exact ⟨h.1, h.2.2.2.1,
    (h.2.2.2.2.2
      (addQueueSubscription initialBrokerState "q" 0 .DURABLE none none (some 1)).state
      rfl).2.2⟩

/-- C5: when the callback succeeds on messages `1 .. K-1` and raises on message `K`
(and any message limit is at least `K`), the consumer invokes the callback exactly `K`
times, acknowledges exactly messages `1 .. K-1`, requeues message `K`, touches no later
message, and terminates with the callback error; once the task is done, the
done-callback removes the queue from both registries. -/
theorem callback_error_requeue_spec (dam : Option Nat) (cbOk : Nat → Bool)
    (K fuel : Nat) (queue_name : String)
    (hK : 1 ≤ K) (hfuel : K ≤ fuel)
    (hok : ∀ j, j + 1 < K → cbOk j = true) (hfail : cbOk (K - 1) = false)
    (hdam : ∀ M, dam = some M → K ≤ M) :
    countCallbackInvocations (consumerRun dam cbOk fuel).1 = K ∧
    countAcks (consumerRun dam cbOk fuel).1 = K - 1 ∧
    (∀ i, ConsumerEvent.acked i ∈ (consumerRun dam cbOk fuel).1 ↔ i + 1 < K) ∧
    ConsumerEvent.requeued (K - 1) ∈ (consumerRun dam cbOk fuel).1 ∧
    (∀ i, ConsumerEvent.requeued i ∈ (consumerRun dam cbOk fuel).1 → i = K - 1) ∧
    (∀ i, ConsumerEvent.callback_started i ∈ (consumerRun dam cbOk fuel).1 → i < K) ∧
    (consumerRun dam cbOk fuel).2.2 = .callback_error ∧
    (∀ st : BrokerState, memberName st.queue_subscription_tasks queue_name = true →
      lookupName (removeQueueSubscriptionTask st
          queue_name).queue_subscription_consumer_by_name queue_name = none ∧
      memberName (removeQueueSubscriptionTask st
          queue_name).queue_subscription_tasks queue_name = false) := by
  have hrun : consumerRun dam cbOk fuel
      = (stepTrace 0 (K - 1) ++ [.callback_started (K - 1), .requeued (K - 1)],
         K - 1, .callback_error) := by
    have h := consumerRunAux_fail_at cbOk (K - 1) (fun j hj => hok j (by omega)) hfail
      dam fuel 0 0 (by omega) (by omega)
      (fun M hM => by have := hdam M hM; omega)
    simpa [consumerRun] using h
  rw [hrun]
  refine ⟨?_, ?_, ?_, ?_, ?_, ?_, rfl, fun st hmem => registry_after_task_done st
    queue_name hmem⟩
  · have h1 := countCallbackInvocations_stepTrace (K - 1) 0
    simp only [countCallbackInvocations] at h1 ⊢
    rw [List.countP_append, h1]
    have h2 : List.countP (fun e => match e with
        | ConsumerEvent.callback_started _ => true | _ => false)
        [ConsumerEvent.callback_started (K - 1), ConsumerEvent.requeued (K - 1)]
        = 1 := rfl
    rw [h2]
    omega
  · have h1 := countAcks_stepTrace (K - 1) 0
    simp only [countAcks] at h1 ⊢
    rw [List.countP_append, h1]
    have h2 : List.countP (fun e => match e with
        | ConsumerEvent.acked _ => true | _ => false)
        [ConsumerEvent.callback_started (K - 1), ConsumerEvent.requeued (K - 1)]
        = 0 := rfl
    rw [h2]
    omega
  · intro i
    simp [List.mem_append, acked_mem_stepTrace (K - 1) 0 i]
    omega
  · simp [List.mem_append]
  · intro i
    simp [List.mem_append, requeued_not_mem_stepTrace (K - 1) 0 i]
  · intro i
    simp [List.mem_append, callback_started_mem_stepTrace (K - 1) 0 i]
    intro hcase
    rcases hcase with h1 | h2
    · omega
    · omega

/-- C5 witness: with a single delivered message whose callback raises, that message is
requeued and the consumer terminates with the callback error. -/
theorem callback_error_requeue_spec_applied :
    ConsumerEvent.requeued 0 ∈ (consumerRun none (fun _ => false) 1).1 ∧
    (consumerRun none (fun _ => false) 1).2.2 = .callback_error := by
  have h := callback_error_requeue_spec none (fun _ => false) 1 1 "q" (by decide)
    (by decide) (fun j hj => by omega) rfl (fun M hM => by cases hM)
  exact ⟨h.2.2.2.1, h.2.2.2.2.2.2.1⟩

/-- The ordering invariant of a consumer trace: whenever the acknowledgement of message
`j` appears at position `p`, `j` is at least the starting index, and if `j = i + 1` for
some message `i` of this run then the callback completion and the acknowledgement of
message `i` both appear strictly before position `p`. -/
theorem consumer_ack_ordering_aux (dam : Option Nat) (cbOk : Nat → Bool) :
    ∀ fuel processed idx p j,
      (consumerRunAux dam cbOk fuel processed idx).1[p]? = some (.acked j) →
      idx ≤ j ∧
      (∀ i, j = i + 1 → idx ≤ i →
        ConsumerEvent.callback_completed i
            ∈ ((consumerRunAux dam cbOk fuel processed idx).1.take p) ∧
        ConsumerEvent.acked i ∈ ((consumerRunAux dam cbOk fuel processed idx).1.take p)) := by
  intro fuel
  induction fuel with
  | zero =>
    intro processed idx p j h
    simp [consumerRunAux] at h
  | succ fuel ih =>
    intro processed idx p j h
    by_cases hc : cbOk idx = true
    · by_cases hl : limitHit dam (processed + 1) = true
      · simp only [consumerRunAux, hc, hl, if_true, consumerStep] at h ⊢
        cases p with
        | zero => simp at h
        | succ p =>
          cases p with
          | zero => simp at h
          | succ p =>
            cases p with
            | zero =>
              simp only [List.getElem?_cons_succ, List.getElem?_cons_zero,
                Option.some.injEq, ConsumerEvent.acked.injEq] at h
              subst h
              refine ⟨by omega, ?_⟩
              intro i hji hidx
              omega
            | succ p => simp at h
      · have hl2 : limitHit dam (processed + 1) = false := by
          simpa using hl
        simp only [consumerRunAux, hc, hl2, Bool.false_eq_true, if_false, if_true,
          consumerStep, List.cons_append, List.nil_append] at h ⊢
        cases p with
        | zero => simp at h
        | succ p =>
          cases p with
          | zero => simp at h
          | succ p =>
            cases p with
            | zero =>
              simp only [List.getElem?_cons_succ, List.getElem?_cons_zero,
                Option.some.injEq, ConsumerEvent.acked.injEq] at h
              subst h
              refine ⟨by omega, ?_⟩
              intro i hji hidx
              omega
            | succ q =>
              simp only [List.getElem?_cons_succ] at h
              have hih := ih (processed + 1) (idx + 1) q j h
              refine ⟨by omega, ?_⟩
              intro i hji hidx
              rcases Nat.lt_or_ge idx i with hgt | hle
              · have hih2 := hih.2 i hji (by omega)
                simp only [List.take_succ_cons, List.mem_cons]
                exact ⟨Or.inr (Or.inr (Or.inr hih2.1)),
                  Or.inr (Or.inr (Or.inr hih2.2))⟩
              · have hieq : i = idx := by omega
                subst hieq
                simp [List.take_succ_cons]
    · have hc2 : cbOk idx = false := by
        simpa using hc
      simp only [consumerRunAux, hc2, Bool.false_eq_true, if_false] at h
      cases p with
      | zero => simp at h
      | succ p =>
        cases p with
        | zero => simp at h
        | succ p => simp at h

/-- C8: the channel prefetch count is set to 1 at setup, and within a single queue
subscription messages are acknowledged strictly in delivery order: whenever the
acknowledgement of message `N + 1` appears at some trace position, the completion of
message `N`'s callback and the acknowledgement of message `N` both appear strictly
earlier in the trace. -/
theorem consumer_ordering_spec :
    setup_prefetch_count = 1 ∧
    ∀ dam cbOk fuel p i,
      (consumerRun dam cbOk fuel).1[p]? = some (.acked (i + 1)) →
      ConsumerEvent.callback_completed i ∈ ((consumerRun dam cbOk fuel).1.take p) ∧
      ConsumerEvent.acked i ∈ ((consumerRun dam cbOk fuel).1.take p) := by
  refine ⟨rfl, ?_⟩
  intro dam cbOk fuel p i h
  exact (consumer_ack_ordering_aux dam cbOk fuel 0 0 p (i + 1) h).2 i rfl (Nat.zero_le i)

/-- C8 witness: in a two-message run, the acknowledgement of message 2 at position 5 is
preceded by the callback completion and acknowledgement of message 1. -/
theorem consumer_ordering_spec_applied :
    ConsumerEvent.callback_completed 0 ∈ ((consumerRun none (fun _ => true) 2).1.take 5) ∧
    ConsumerEvent.acked 0 ∈ ((consumerRun none (fun _ => true) 2).1.take 5) :=
  consumer_ordering_spec.2 none (fun _ => true) 2 5 0 rfl

/-! Shutdown lemmas and claim. -/

theorem stopCall_already_stopping (tasks : List String) (st : LifecycleState) (g : Bool)
    (h : st.stopping = true) : stopCall tasks st g = (st, false) := by
  cases st
  simp_all [stopCall]

theorem runStopCalls_already_stopping (tasks : List String) (gs : List Bool)
    (st : LifecycleState) (h : st.stopping = true) :
    runStopCalls tasks st gs = (st, List.replicate gs.length false) := by
  induction gs with
  | nil => rfl
  | cons g rest ih =>
    simp [runStopCalls, stopCall_already_stopping tasks st g h, ih, List.replicate]

/-- C2: for any serialisation order of concurrent `stop()` calls from the fresh state,
the shutdown sequence (cancel every subscription task, close channel, close connection)
is scheduled exactly once, `loop.stop` is requested exactly once, the interface ends
marked stopped, and no `stop()` call raises — also when the graceful shutdown misses the
`TIMEOUT_ON_STOP_SECONDS = 5` bound (in which case the error is logged and the loop is
still forcibly stopped). -/
theorem stop_exactly_once_spec (tasks : List String) (gs : List Bool) (h : gs ≠ []) :
    (runStopCalls tasks initialLifecycleState gs).1.shutdown_ops_log
      = stopBrokerInterfaceOps tasks ∧
    (runStopCalls tasks initialLifecycleState gs).1.loop_stop_requests = 1 ∧
    (runStopCalls tasks initialLifecycleState gs).1.stopped = true ∧
    (runStopCalls tasks initialLifecycleState gs).2 = List.replicate gs.length false ∧
    TIMEOUT_ON_STOP_SECONDS = 5 := by
  cases gs with
  | nil => exact absurd rfl h
  | cons g rest =>
    have h1 : (stopCall tasks initialLifecycleState g).1.stopping = true := by
      cases g <;> rfl
    have h2 := runStopCalls_already_stopping tasks rest
      (stopCall tasks initialLifecycleState g).1 h1
    simp only [runStopCalls, h2]
    cases g <;>
      simp [stopCall, initialLifecycleState, stopBrokerInterfaceOps,
        TIMEOUT_ON_STOP_SECONDS, List.replicate]

/-- C2 witness: two serialised `stop()` calls, the first of which times out waiting for
the graceful shutdown, still schedule the shutdown sequence once, request `loop.stop`
once, and neither call raises. -/
theorem stop_exactly_once_spec_applied :
    (runStopCalls ["q1"] initialLifecycleState [false, true]).1.shutdown_ops_log
      = stopBrokerInterfaceOps ["q1"] ∧
    (runStopCalls ["q1"] initialLifecycleState [false, true]).1.loop_stop_requests = 1 ∧
    (runStopCalls ["q1"] initialLifecycleState [false, true]).2 = [false, false] := by
  have h := stop_exactly_once_spec ["q1"] [false, true] (by simp)
  exact ⟨h.1, h.2.1, by rw [h.2.2.2.1]; rfl⟩

/-- C7: constructing a TTL argument set with a non-positive queue TTL fails; a strictly
positive queue TTL succeeds and maps to `x-expires` in exact milliseconds (60 seconds
gives 60000); a message TTL exceeding the queue TTL fails at construction; a strictly
positive message TTL not exceeding the queue TTL succeeds and maps to `x-message-ttl`
in milliseconds. -/
theorem queue_message_ttl_spec :
    (∀ q : Timedelta, q.microseconds ≤ 0 →
      isOkExcept (mkQueueMessageTTLArguments (some q) none none none) = false) ∧
    (∀ q : Timedelta, 0 < q.microseconds →
      mkQueueMessageTTLArguments (some q) none none none
        = .ok { queue_ttl := some q, message_ttl := none,
                dead_letter_routing_key := none, dead_letter_exchange := none } ∧
      ({ queue_ttl := some q, message_ttl := none, dead_letter_routing_key := none,
         dead_letter_exchange := none : QueueMessageTTLArguments }).to_argument
        = [("x-expires", WireValue.int q.total_milliseconds)]) ∧
    (Timedelta.ofSeconds 60).total_milliseconds = 60000 ∧
    (∀ q m : Timedelta, ∀ dlrk dle : Option String,
      q.microseconds < m.microseconds →
      isOkExcept (mkQueueMessageTTLArguments (some q) (some m) dlrk dle) = false) ∧
    (∀ q m : Timedelta, ∀ dlrk dle : Option String,
      0 < m.microseconds → m.microseconds ≤ q.microseconds →
      mkQueueMessageTTLArguments (some q) (some m) dlrk dle
        = .ok { queue_ttl := some q, message_ttl := some m,
                dead_letter_routing_key := dlrk, dead_letter_exchange := dle } ∧
      ({ queue_ttl := some q, message_ttl := some m, dead_letter_routing_key := dlrk,
         dead_letter_exchange := dle : QueueMessageTTLArguments }).to_argument.take 2
        = [("x-expires", WireValue.int q.total_milliseconds),
           ("x-message-ttl", WireValue.int m.total_milliseconds)]) := by
  refine ⟨?_, ?_, by decide, ?_, ?_⟩
  · intro q hq
    simp [mkQueueMessageTTLArguments, hq, isOkExcept]
  · intro q hq
    have h1 : ¬ q.microseconds ≤ 0 := by omega
    constructor
    · simp [mkQueueMessageTTLArguments, h1]
    · simp [QueueMessageTTLArguments.to_argument]
  · intro q m dlrk dle hlt
    by_cases h1 : q.microseconds ≤ 0
    · simp [mkQueueMessageTTLArguments, h1, isOkExcept]
    · by_cases h2 : m.microseconds ≤ 0
      · simp [mkQueueMessageTTLArguments, h1, h2, isOkExcept]
      · simp [mkQueueMessageTTLArguments, h1, h2, hlt, isOkExcept]
  · intro q m dlrk dle hm hle
    have h1 : ¬ q.microseconds ≤ 0 := by omega
    have h2 : ¬ m.microseconds ≤ 0 := by omega
    have h3 : ¬ q.microseconds < m.microseconds := by omega
    constructor
    · simp [mkQueueMessageTTLArguments, h1, h2, h3]
    · cases dlrk <;> cases dle <;> simp [QueueMessageTTLArguments.to_argument]

/-- C7 witness: a 60-second queue TTL with a 30-second message TTL constructs
successfully and maps to 60000 and 30000 milliseconds; a 60-second message TTL over a
30-second queue TTL fails to construct. -/
theorem queue_message_ttl_spec_applied :
    mkQueueMessageTTLArguments (some (Timedelta.ofSeconds 60))
        (some (Timedelta.ofSeconds 30)) none none
      = .ok { queue_ttl := some (Timedelta.ofSeconds 60),
              message_ttl := some (Timedelta.ofSeconds 30),
              dead_letter_routing_key := none, dead_letter_exchange := none } ∧
    (Timedelta.ofSeconds 60).total_milliseconds = 60000 ∧
    isOkExcept (mkQueueMessageTTLArguments (some (Timedelta.ofSeconds 30))
      (some (Timedelta.ofSeconds 60)) none none) = false := by
  have h := queue_message_ttl_spec
  exact ⟨(h.2.2.2.2 (Timedelta.ofSeconds 60) (Timedelta.ofSeconds 30) none none
      (by decide) (by decide)).1,
    h.2.2.1,
    h.2.2.2.1 (Timedelta.ofSeconds 30) (Timedelta.ofSeconds 60) none none (by decide)⟩

end OmotesSDK
